import Mathlib

/-!
Verification of the medicine-prescriber prototype.

Part 1 embeds the glue module `src/backend/api/main.py` (user-profile
update, access-token retrieval, configuration resolution in `init`).
Python dicts are modelled as insertion-ordered association lists, dict
subscription as a fallible lookup (`Except` for `KeyError`), and Python
truthiness of the collaborator results as `Option`.

Part 2 models the prediction engine (Vocabulary Store, Sequence Encoder,
Model Runtime interface, Ranker), whose code is not part of the visible
sources; those definitions are modelled from the spec, as marked.
-/

/-- Python's `str.isspace` character class used by `str.strip()`:
space, tab, newline, vertical tab, form feed, carriage return. -/
def pyIsSpace (c : Char) : Bool :=
  c == ' ' || (9 ≤ c.toNat && c.toNat ≤ 13)

/-- Python's `s.strip()`: remove leading and trailing whitespace. -/
def pyStrip (s : String) : String :=
  String.mk (((s.toList.dropWhile pyIsSpace).reverse.dropWhile pyIsSpace).reverse)

/-- A Python dict with string keys and string values, as an
insertion-ordered association list (first binding of a key is its value;
`setItem` updates in place like CPython's ordered dict). -/
abbrev PyDict : Type := List (String × String)

/-- `k in d` for a Python dict. -/
def PyDict.hasKey (d : PyDict) (k : String) : Bool :=
  (List.find? (fun kv => kv.1 == k) d).isSome

/-- `d[k]`: raises `KeyError` when the key is absent. -/
def PyDict.getItem (d : PyDict) (k : String) : Except String String :=
  match List.find? (fun kv => kv.1 == k) d with
  | some kv => .ok kv.2
  | none => .error ("KeyError: " ++ k)

/-- `d[k] = v`: replace the existing binding in place, else append. -/
def PyDict.setItem (d : PyDict) (k v : String) : PyDict :=
  match d with
  | [] => [(k, v)]
  | kv :: rest =>
    if kv.1 == k then (k, v) :: rest else kv :: PyDict.setItem rest k v

/-- The `user_info` object produced by `oauth2.get_user_info`. -/
structure UserInfo where
  name : String
  login_sub : String
  picture_url : String
  profile_url : String
  last_logged_in : String
  email_address : String

/-- Python short-circuit `or` whose right operand may raise. -/
def pyOr (a : Bool) (b : Except String Bool) : Except String Bool :=
  if a then .ok true else b

/-- A dict is never `None`, so `user_profile is None` evaluates to
`False` inside `_update_user_profile`. -/
def pyDictIsNone (_ : PyDict) : Bool := false

/-- Embeds `_update_user_profile` (src/backend/api/main.py lines 11-32).
Returns the profile dict passed to `document_db.upsert_user`.

The conditions on `picture_url` and `profile_url` embed the source's
chained comparison `not "picture_url" in user_profile is None`, which
Python parses as `not (("picture_url" in user_profile) and
(user_profile is None))`. -/
def updateUserProfile (p : PyDict) (u : UserInfo) : Except String PyDict := do
  let condName ← pyOr (!(p.hasKey "name"))
    (do let v ← p.getItem "name"; pure (pyStrip v == ""))
  let p := if condName then p.setItem "name" u.name else p.setItem "name" ""
  let p := p.setItem "login_sub" u.login_sub
  let condPic ← pyOr (!(p.hasKey "picture_url" && pyDictIsNone p))
    (do let v ← p.getItem "picture_url"; pure (pyStrip v == ""))
  let p := if condPic then p.setItem "picture_url" u.picture_url
    else p.setItem "picture_url" ""
  let condProf ← pyOr (!(p.hasKey "profile_url" && pyDictIsNone p))
    (do let v ← p.getItem "profile_url"; pure (pyStrip v == ""))
  let p := if condProf then p.setItem "profile_url" u.profile_url
    else p.setItem "profile_url" ""
  let p := p.setItem "last_logged_in" u.last_logged_in
  pure p

/-- A Python return value that is either `None` or a string. -/
inductive PyReturn where
  | none : PyReturn
  | str (s : String) : PyReturn
deriving DecidableEq

/-- The collaborators consumed by `get_access_token`: the user info
decoded from the token (`None`/falsy becomes `none`) and the
`document_db.get_user` lookup (falsy result becomes `none`). -/
structure OAuthEnv where
  userInfo : Option UserInfo
  getUser : String → Option PyDict

/-- Embeds `get_access_token` (src/backend/api/main.py lines 35-46).
`accessToken` is the payload string returned by
`oauth2.get_access_token`. The second component records every profile
passed to `document_db.upsert_user` during the call (empty when no
profile update happened). -/
def getAccessToken (accessToken : String) (env : OAuthEnv) :
    Except String (PyReturn × List PyDict) :=
  match env.userInfo with
  | Option.none => .ok (.none, [])
  | Option.some ui =>
    match env.getUser ui.email_address with
    | Option.none => .ok (.str "Error: user is not registered to access!", [])
    | Option.some p => do
      let q ← updateUserProfile p ui
      pure (.str accessToken, [q])

/-- A Python value that is either an int or a str, for configuration
values whose type depends on the branch taken in `init`. -/
inductive PyValue where
  | int (n : Int) : PyValue
  | str (s : String) : PyValue
deriving DecidableEq

/-- `os.environ.get(key, default=default)`: environment variables are
strings, so a set variable always yields a `str`. -/
def osEnvironGet (environ : String → Option String) (key : String)
    (default : PyValue) : PyValue :=
  match environ key with
  | some s => .str s
  | none => default

/-- Embeds the `config.SYMPTOMS_SEQUENCE_MAXLEN` assignment in `init`
(src/backend/api/main.py lines 146-148): the raw environment string is
stored without any `int()` conversion. -/
def initSymptomsSequenceMaxlen (environ : String → Option String)
    (default : PyValue) : PyValue :=
  osEnvironGet environ "SYMPTOMS_SEQUENCE_MAXLEN" default

/-- Whether a Python value is a positive integer. -/
def PyValue.isPositiveInt : PyValue → Bool
  | .int n => 0 < n
  | .str _ => false

/-!
Part 2: the prediction engine. Its implementation (the
`machine_learning` module) is not among the visible sources — only its
caller `predict_provisional_diagnosis` is — so the component contracts
of the spec are modelled here, faithful to the spec's words. Confidence
scores are modelled as exact rationals.
-/

/-- Modelled from the spec: the engine's error taxonomy (section 7);
the `machine_learning` module defining these errors is missing from
the sources. -/
inductive EngineError where
  | artifactLoadError (path : String) : EngineError
  | unknownIndexError (index : Nat) : EngineError
  | distributionMismatchError (distLen vocabLen : Nat) : EngineError
  | invalidFeatureError (feature : String) : EngineError
deriving DecidableEq

/-- Modelled from the spec: a Vocabulary (section 3) — a bidirectional
token/id mapping with reserved unknown and padding ids; the tokenizer
artifact loading code is missing from the sources. Token `words[i]`
has id `i`. -/
structure Vocabulary where
  words : List String
  unknown_id : Nat
  padding_id : Nat

/-- Modelled from the spec: `encode(token) -> id` returns the
unknown-id if the token is absent; never fails (section 4.1). -/
def Vocabulary.encode (v : Vocabulary) (t : String) : Nat :=
  match List.findIdx? (fun w => w == t) v.words with
  | some i => i
  | none => v.unknown_id

/-- Modelled from the spec: `decode(id) -> token` fails with
`UnknownIndexError` if the id is out of range (section 4.1). -/
def Vocabulary.decode (v : Vocabulary) (i : Nat) : Except EngineError String :=
  match v.words.get? i with
  | some w => .ok w
  | none => .error (.unknownIndexError i)

/-- The configured padding side, `"pre"` or `"post"`. -/
inductive PaddingType where
  | pre : PaddingType
  | post : PaddingType
deriving DecidableEq

/-- Modelled from the spec: step 3 of the Sequence Encoder (section
4.2) — pad with the padding-id to exactly `maxLen` on the configured
side, or truncate to `maxLen` dropping the earliest tokens for "pre"
and the latest for "post". -/
def padSequence (pt : PaddingType) (padId : Nat) (maxLen : Nat)
    (xs : List Nat) : List Nat :=
  if xs.length ≤ maxLen then
    match pt with
    | .post => xs ++ List.replicate (maxLen - xs.length) padId
    | .pre => List.replicate (maxLen - xs.length) padId ++ xs
  else
    match pt with
    | .pre => xs.drop (xs.length - maxLen)
    | .post => xs.take maxLen

/-- Modelled from the spec: step 1 of the Sequence Encoder (section
4.2) — concatenate the three textual fields in field order into one
ordered token list, the separator marking the boundary between
consecutive non-empty fields (the spec leaves the exact separator
insertion rule open; this matches its end-to-end example). -/
def joinFields (subjective associated investigations : List String)
    (sep : String) : List String :=
  match List.filter (fun f => !List.isEmpty f)
      [subjective, associated, investigations] with
  | [] => []
  | f :: fs => f ++ List.foldr (fun g acc => (sep :: g) ++ acc) [] fs

/-- Modelled from the spec: the Sequence Encoder's
`encode(symptom_input, vocabulary, separator, padding_type, max_len)`
(section 4.2): join the fields, map each token through the
vocabulary's `encode`, then pad/truncate to exactly `maxLen`. -/
def encodeSequence (subjective associated investigations : List String)
    (v : Vocabulary) (sep : String) (pt : PaddingType) (maxLen : Nat) :
    List Nat :=
  padSequence pt v.padding_id maxLen
    (List.map v.encode (joinFields subjective associated investigations sep))

/-- The Ranker's ordering on (distribution index, confidence) pairs:
higher confidence first, ties broken by ascending index (section 4.4). -/
def rankRel (a b : Nat × ℚ) : Prop :=
  b.2 < a.2 ∨ (a.2 = b.2 ∧ a.1 ≤ b.1)

instance : DecidableRel rankRel := fun _ _ =>
  inferInstanceAs (Decidable (_ ∨ _))

instance : IsTotal (Nat × ℚ) rankRel where
  total a b := by
    rcases lt_trichotomy a.2 b.2 with h | h | h
    · exact Or.inr (Or.inl h)
    · rcases Nat.le_total a.1 b.1 with h' | h'
      · exact Or.inl (Or.inr ⟨h, h'⟩)
      · exact Or.inr (Or.inr ⟨h.symm, h'⟩)
    · exact Or.inl (Or.inl h)

instance : IsTrans (Nat × ℚ) rankRel where
  trans _ _ _ hab hbc := by
    rcases hab with h1 | ⟨e1, l1⟩
    · rcases hbc with h2 | ⟨e2, _⟩
      · exact Or.inl (h2.trans h1)
      · exact Or.inl (e2 ▸ h1)
    · rcases hbc with h2 | ⟨e2, l2⟩
      · exact Or.inl (e1 ▸ h2)
      · exact Or.inr ⟨e1.trans e2, l1.trans l2⟩

/-- Modelled from the spec: the Ranker's core (section 4.4) — pair
every distribution index with its confidence, sort descending by
confidence with ties broken by ascending index, and keep the first
`top_k` entries when `top_k` is provided. -/
def rankIndexed (dist : List ℚ) (topK : Option Nat) : List (Nat × ℚ) :=
  match topK with
  | some k => (List.insertionSort rankRel dist.enum).take k
  | none => List.insertionSort rankRel dist.enum

/-- Modelled from the spec: the Ranker's
`rank(distribution, diagnosis_vocabulary, top_k=None)` (section 4.4):
fail with `DistributionMismatchError` when the distribution length
differs from the vocabulary size, otherwise decode each ranked index
to its label. -/
def rank (dist : List ℚ) (v : Vocabulary) (topK : Option Nat) :
    Except EngineError (List (String × ℚ)) :=
  if dist.length = v.words.length then
    .ok (List.map (fun p => (v.words.getD p.1 "", p.2)) (rankIndexed dist topK))
  else
    .error (.distributionMismatchError dist.length v.words.length)

/-- Modelled from the spec: the engine's process-wide immutable state
after loading (section 2) — the two vocabularies, the configuration,
and the loaded model exposed as its pure inference function
`infer(token_sequence, gender, age) -> PredictionDistribution`
(section 4.3); the artifact-loading code is missing from the sources. -/
structure Engine where
  symptomVocab : Vocabulary
  diagnosisVocab : Vocabulary
  separator : String
  paddingType : PaddingType
  maxLen : Nat
  infer : List Nat → String → String → List ℚ

/-- The probability distribution the loaded model produces for a given
symptom input. -/
def Engine.distribution (e : Engine)
    (subjective associated investigations : List String)
    (gender age : String) : List ℚ :=
  e.infer
    (encodeSequence subjective associated investigations
      e.symptomVocab e.separator e.paddingType e.maxLen)
    gender age

/-- Modelled from the spec: the public prediction operation
`predict(subjective_symptoms, associated_symptoms, investigations_done,
gender, age)` (section 6), the pipeline Sequence Encoder → Model
Runtime → Ranker, returning the full ranked list. -/
def Engine.predict (e : Engine)
    (subjective associated investigations : List String)
    (gender age : String) : Except EngineError (List (String × ℚ)) :=
  rank (e.distribution subjective associated investigations gender age)
    e.diagnosisVocab none

/-!
Helper lemmas about the Python dict model.
-/

theorem PyDict.getItem_of_hasKey {p : PyDict} {k : String}
    (h : p.hasKey k = true) : ∃ v, p.getItem k = .ok v := by
  unfold PyDict.hasKey at h
  unfold PyDict.getItem
  cases hf : List.find? (fun kv => kv.1 == k) p with
  | none => rw [hf] at h; simp at h
  | some kv => exact ⟨kv.2, rfl⟩

theorem PyDict.hasKey_of_getItem {p : PyDict} {k v : String}
    (h : p.getItem k = .ok v) : p.hasKey k = true := by
  unfold PyDict.getItem at h
  unfold PyDict.hasKey
  cases hf : List.find? (fun kv => kv.1 == k) p with
  | none => rw [hf] at h; exact absurd h (by simp)
  | some kv => simp [hf]

theorem PyDict.getItem_setItem_self (p : PyDict) (k v : String) :
    (p.setItem k v).getItem k = .ok v := by
  induction p with
  | nil => simp [PyDict.setItem, PyDict.getItem, List.find?]
  | cons kv rest ih =>
    unfold PyDict.setItem
    cases h : (kv.1 == k) with
    | true => simp [PyDict.getItem, List.find?]
    | false =>
      simp only [h, Bool.false_eq_true, if_false]
      unfold PyDict.getItem at ih ⊢
      simp only [List.find?_cons, h]
      exact ih

theorem PyDict.getItem_setItem_ne (p : PyDict) {k k' : String}
    (h : k' ≠ k) (v : String) :
    (p.setItem k' v).getItem k = p.getItem k := by
  have hkk : (k' == k) = false := beq_eq_false_iff_ne.mpr h
  induction p with
  | nil => simp [PyDict.setItem, PyDict.getItem, List.find?, hkk]
  | cons kv rest ih =>
    unfold PyDict.setItem
    cases h1 : (kv.1 == k') with
    | true =>
      have hk1 : (kv.1 == k) = false := by
        rw [beq_iff_eq] at h1
        rw [beq_eq_false_iff_ne, h1]
        exact h
      unfold PyDict.getItem
      simp only [h1, if_true, List.find?_cons, hkk, hk1]
    | false =>
      simp only [h1, Bool.false_eq_true, if_false]
      unfold PyDict.getItem at ih ⊢
      cases h2 : (kv.1 == k) with
      | true => simp [List.find?_cons, h2]
      | false =>
        simp only [List.find?_cons, h2]
        exact ih

/-- The boolean value of the first condition in `_update_user_profile`
(`not "name" in user_profile or user_profile["name"].strip() == ""`),
when it evaluates without raising. -/
def nameCond (p : PyDict) : Bool :=
  !(p.hasKey "name") ||
    (match p.getItem "name" with
     | .ok v => pyStrip v == ""
     | .error _ => false)

/-- `_update_user_profile` never raises and produces exactly this dict:
the `name` assignment is governed by `nameCond`, and the `picture_url`
and `profile_url` conditions are always true (the chained comparison
contains `user_profile is None`, false for a dict), so those fields are
always overwritten with the incoming user-info values. -/
theorem updateUserProfile_eq (p : PyDict) (u : UserInfo) :
    updateUserProfile p u = .ok
      (((((if nameCond p then p.setItem "name" u.name
            else p.setItem "name" "").setItem
          "login_sub" u.login_sub).setItem
          "picture_url" u.picture_url).setItem
          "profile_url" u.profile_url).setItem
          "last_logged_in" u.last_logged_in) := by
  unfold updateUserProfile nameCond
  cases hk : p.hasKey "name" with
  | false =>
    simp [pyOr, pyDictIsNone, hk, Bind.bind, Except.bind, Pure.pure,
      Except.pure]
  | true =>
    obtain ⟨v, hv⟩ := PyDict.getItem_of_hasKey hk
    simp [pyOr, pyDictIsNone, hk, hv, Bind.bind, Except.bind, Pure.pure,
      Except.pure]

/-- `_update_user_profile` always succeeds (no `KeyError`). -/
theorem updateUserProfile_total (p : PyDict) (u : UserInfo) :
    ∃ q, updateUserProfile p u = .ok q :=
  ⟨_, updateUserProfile_eq p u⟩

/-- Claim C8: for every `user_profile` dict in which the `name` key is
present with a non-blank value, `_update_user_profile` assigns the
empty string to `user_profile["name"]`, discarding the existing data,
whereas when `name` is absent or blank it assigns `user_info.name`. -/
theorem updateUserProfile_name_behavior (p : PyDict) (u : UserInfo) :
    (∀ v, p.getItem "name" = .ok v → pyStrip v ≠ "" →
      ∃ q, updateUserProfile p u = .ok q ∧ q.getItem "name" = .ok "") ∧
    ((p.hasKey "name" = false ∨
        (∃ v, p.getItem "name" = .ok v ∧ pyStrip v = "")) →
      ∃ q, updateUserProfile p u = .ok q ∧ q.getItem "name" = .ok u.name) := by
  constructor
  · intro v hv hnb
    refine ⟨_, updateUserProfile_eq p u, ?_⟩
    have hc : nameCond p = false := by
      unfold nameCond
      rw [PyDict.hasKey_of_getItem hv, hv]
      simp [hnb]
    rw [hc]
    simp only [Bool.false_eq_true, if_false]
    rw [PyDict.getItem_setItem_ne _ (by decide),
      PyDict.getItem_setItem_ne _ (by decide),
      PyDict.getItem_setItem_ne _ (by decide),
      PyDict.getItem_setItem_ne _ (by decide),
      PyDict.getItem_setItem_self]
  · intro hd
    refine ⟨_, updateUserProfile_eq p u, ?_⟩
    have hc : nameCond p = true := by
      unfold nameCond
      rcases hd with h | ⟨v, hv, hb⟩
      · rw [h]; simp
      · rw [hv]
        simp [hb]
    rw [hc]
    simp only [if_true]
    rw [PyDict.getItem_setItem_ne _ (by decide),
      PyDict.getItem_setItem_ne _ (by decide),
      PyDict.getItem_setItem_ne _ (by decide),
      PyDict.getItem_setItem_ne _ (by decide),
      PyDict.getItem_setItem_self]

/-- Concrete instances of `updateUserProfile_name_behavior`: a profile
whose `name` is the non-blank `"Alice"` is cleared to `""`, and a
profile whose `name` is blank receives the incoming name `"N"`. -/
theorem updateUserProfile_name_behavior_witness :
    (∃ q, updateUserProfile [("name", "Alice")] ⟨"N", "L", "P", "Q", "T", "E"⟩
        = .ok q ∧ q.getItem "name" = .ok "") ∧
    (∃ q, updateUserProfile [("name", "  ")] ⟨"N", "L", "P", "Q", "T", "E"⟩
        = .ok q ∧ q.getItem "name" = .ok "N") :=
  ⟨(updateUserProfile_name_behavior [("name", "Alice")]
      ⟨"N", "L", "P", "Q", "T", "E"⟩).1 "Alice" rfl (by decide),
   (updateUserProfile_name_behavior [("name", "  ")]
      ⟨"N", "L", "P", "Q", "T", "E"⟩).2 (Or.inr ⟨"  ", rfl, rfl⟩)⟩

/-- Claim C9: for every (non-None) `user_profile` dict and `user_info`,
`_update_user_profile` always assigns `user_info.picture_url` and
`user_info.profile_url` to the corresponding fields — the chained
comparison `not "picture_url" in user_profile is None` is true for
every dict, the clearing else-branch is unreachable, and no `KeyError`
is raised when the keys are absent (the call always succeeds). -/
theorem updateUserProfile_picture_profile (p : PyDict) (u : UserInfo) :
    ∃ q, updateUserProfile p u = .ok q ∧
      q.getItem "picture_url" = .ok u.picture_url ∧
      q.getItem "profile_url" = .ok u.profile_url := by
  refine ⟨_, updateUserProfile_eq p u, ?_, ?_⟩
  · rw [PyDict.getItem_setItem_ne _ (by decide),
      PyDict.getItem_setItem_ne _ (by decide),
      PyDict.getItem_setItem_self]
  · rw [PyDict.getItem_setItem_ne _ (by decide),
      PyDict.getItem_setItem_self]

/-- Claim C10: `get_access_token` returns `None` when
`oauth2.get_user_info` yields a falsy value; returns the literal
string `"Error: user is not registered to access!"` without updating
any profile when the user info is truthy but `document_db.get_user`
finds no profile; and returns the access-token payload (after the
profile update) only when both succeed. -/
theorem getAccessToken_behavior (tok : String) (env : OAuthEnv) :
    (env.userInfo = none → getAccessToken tok env = .ok (.none, [])) ∧
    (∀ ui, env.userInfo = some ui → env.getUser ui.email_address = none →
      getAccessToken tok env =
        .ok (.str "Error: user is not registered to access!", [])) ∧
    (∀ ui p, env.userInfo = some ui → env.getUser ui.email_address = some p →
      ∃ q, updateUserProfile p ui = .ok q ∧
        getAccessToken tok env = .ok (.str tok, [q])) := by
  refine ⟨?_, ?_, ?_⟩
  · intro h
    unfold getAccessToken
    rw [h]
  · intro ui hui hgu
    unfold getAccessToken
    simp only [hui, hgu]
  · intro ui p hui hgu
    refine ⟨_, updateUserProfile_eq p ui, ?_⟩
    unfold getAccessToken
    simp only [hui, hgu]
    rw [updateUserProfile_eq p ui]
    rfl

/-- Concrete instances of `getAccessToken_behavior`, one per branch:
falsy user info yields `None`; a truthy user info with no stored
profile yields the error string with no profile upserted; a registered
user yields the token payload. -/
theorem getAccessToken_behavior_witness :
    (getAccessToken "tok" ⟨none, fun _ => none⟩ = .ok (.none, [])) ∧
    (getAccessToken "tok" ⟨some ⟨"N", "L", "P", "Q", "T", "E"⟩, fun _ => none⟩
      = .ok (.str "Error: user is not registered to access!", [])) ∧
    (∃ q, updateUserProfile [("name", "Bob")] ⟨"N", "L", "P", "Q", "T", "E"⟩
        = .ok q ∧
      getAccessToken "tok"
        ⟨some ⟨"N", "L", "P", "Q", "T", "E"⟩, fun _ => some [("name", "Bob")]⟩
        = .ok (.str "tok", [q])) :=
  ⟨(getAccessToken_behavior "tok" ⟨none, fun _ => none⟩).1 rfl,
   (getAccessToken_behavior "tok"
      ⟨some ⟨"N", "L", "P", "Q", "T", "E"⟩, fun _ => none⟩).2.1
      ⟨"N", "L", "P", "Q", "T", "E"⟩ rfl rfl,
   (getAccessToken_behavior "tok"
      ⟨some ⟨"N", "L", "P", "Q", "T", "E"⟩, fun _ => some [("name", "Bob")]⟩).2.2
      ⟨"N", "L", "P", "Q", "T", "E"⟩ [("name", "Bob")] rfl rfl⟩

/-- Claim C7 (refuted, code bug): with the environment variable
`SYMPTOMS_SEQUENCE_MAXLEN` set (to `"75"` here), `init` stores the raw
environment string — a `str`, not a positive integer — because the
assignment applies no `int()` conversion; the claim and the spec's
configuration contract require a positive integer. -/
theorem initSymptomsSequenceMaxlen_env_set_not_int :
    initSymptomsSequenceMaxlen
        (fun k => if k = "SYMPTOMS_SEQUENCE_MAXLEN" then some "75" else none)
        (.int 75) = .str "75" ∧
    (initSymptomsSequenceMaxlen
        (fun k => if k = "SYMPTOMS_SEQUENCE_MAXLEN" then some "75" else none)
        (.int 75)).isPositiveInt = false := by
  constructor
  · rfl
  · rfl

/-!
Sequence Encoder properties.
-/

/-- The token-id list before padding: the joined fields mapped through
the symptom vocabulary. -/
def tokenIds (subjective associated investigations : List String)
    (v : Vocabulary) (sep : String) : List Nat :=
  List.map v.encode (joinFields subjective associated investigations sep)

theorem encodeSequence_def (subjective associated investigations : List String)
    (v : Vocabulary) (sep : String) (pt : PaddingType) (maxLen : Nat) :
    encodeSequence subjective associated investigations v sep pt maxLen =
      padSequence pt v.padding_id maxLen
        (tokenIds subjective associated investigations v sep) := rfl

theorem padSequence_length (pt : PaddingType) (padId maxLen : Nat)
    (xs : List Nat) : (padSequence pt padId maxLen xs).length = maxLen := by
  unfold padSequence
  by_cases h : xs.length ≤ maxLen
  · cases pt <;> simp [h]
  · cases pt <;> simp [h] <;> omega

/-- Claim C3: the Sequence Encoder always returns exactly `maxLen`
ids; an input with at most `maxLen` tokens keeps every real token and
appends (for "post") or prepends (for "pre") exactly
`maxLen - token_count` padding ids; an input with more than `maxLen`
tokens is truncated to `maxLen` dropping the earliest tokens for "pre"
and the latest for "post". -/
theorem encodeSequence_pad_truncate
    (subjective associated investigations : List String) (v : Vocabulary)
    (sep : String) (pt : PaddingType) (maxLen : Nat) :
    (encodeSequence subjective associated investigations v sep pt maxLen).length
        = maxLen ∧
    ((tokenIds subjective associated investigations v sep).length ≤ maxLen →
      (pt = .post →
        encodeSequence subjective associated investigations v sep pt maxLen =
          tokenIds subjective associated investigations v sep ++
            List.replicate
              (maxLen -
                (tokenIds subjective associated investigations v sep).length)
              v.padding_id) ∧
      (pt = .pre →
        encodeSequence subjective associated investigations v sep pt maxLen =
          List.replicate
              (maxLen -
                (tokenIds subjective associated investigations v sep).length)
              v.padding_id ++
            tokenIds subjective associated investigations v sep)) ∧
    (maxLen < (tokenIds subjective associated investigations v sep).length →
      (pt = .pre →
        encodeSequence subjective associated investigations v sep pt maxLen =
          (tokenIds subjective associated investigations v sep).drop
            ((tokenIds subjective associated investigations v sep).length -
              maxLen)) ∧
      (pt = .post →
        encodeSequence subjective associated investigations v sep pt maxLen =
          (tokenIds subjective associated investigations v sep).take maxLen)) := by
  refine ⟨?_, ?_, ?_⟩
  · rw [encodeSequence_def]
    exact padSequence_length pt v.padding_id maxLen _
  · intro h
    constructor <;> intro hpt <;> subst hpt <;>
      rw [encodeSequence_def] <;> unfold padSequence <;> simp [h]
  · intro h
    have h' :
        ¬(tokenIds subjective associated investigations v sep).length ≤ maxLen :=
      by omega
    constructor <;> intro hpt <;> subst hpt <;>
      rw [encodeSequence_def] <;> unfold padSequence <;> simp [h']

/-- A small symptom vocabulary used for concrete witness checks:
id 0 is the padding id, id 1 the unknown id. -/
def sampleVocab : Vocabulary :=
  ⟨["pad0", "unk1", "fever", "cough", "|", "chest x-ray"], 1, 0⟩

/-- Concrete instances of `encodeSequence_pad_truncate`: the spec's
end-to-end example padded on the right to length 10, and a
three-token input truncated on the left ("pre") to length 2. -/
theorem encodeSequence_pad_truncate_witness :
    (encodeSequence ["fever", "cough"] [] ["chest x-ray"] sampleVocab "|"
        PaddingType.post 10).length = 10 ∧
    encodeSequence ["fever", "cough"] [] ["chest x-ray"] sampleVocab "|"
        PaddingType.post 10 =
      tokenIds ["fever", "cough"] [] ["chest x-ray"] sampleVocab "|" ++
        List.replicate
          (10 - (tokenIds ["fever", "cough"] [] ["chest x-ray"] sampleVocab
              "|").length)
          sampleVocab.padding_id ∧
    encodeSequence ["fever", "cough", "fever"] [] [] sampleVocab "|"
        PaddingType.pre 2 =
      (tokenIds ["fever", "cough", "fever"] [] [] sampleVocab "|").drop
        ((tokenIds ["fever", "cough", "fever"] [] [] sampleVocab "|").length -
          2) :=
  ⟨(encodeSequence_pad_truncate ["fever", "cough"] [] ["chest x-ray"]
      sampleVocab "|" PaddingType.post 10).1,
   ((encodeSequence_pad_truncate ["fever", "cough"] [] ["chest x-ray"]
      sampleVocab "|" PaddingType.post 10).2.1 (by decide)).1 rfl,
   ((encodeSequence_pad_truncate ["fever", "cough", "fever"] [] []
      sampleVocab "|" PaddingType.pre 2).2.2 (by decide)).1 rfl⟩

/-- Claim C4: the empty symptom input (all three textual fields empty)
does not fail and encodes to exactly `maxLen` padding ids. -/
theorem encodeSequence_empty_input (v : Vocabulary) (sep : String)
    (pt : PaddingType) (maxLen : Nat) :
    encodeSequence [] [] [] v sep pt maxLen =
      List.replicate maxLen v.padding_id := by
  rw [encodeSequence_def]
  unfold tokenIds joinFields padSequence
  cases pt <;> simp

/-!
Ranker properties.
-/

/-- Strict version of the Ranker's order: confidence strictly higher,
or equal confidence and strictly smaller distribution index. -/
def rankStrict (a b : Nat × ℚ) : Prop :=
  b.2 < a.2 ∨ (a.2 = b.2 ∧ a.1 < b.1)

theorem rankIndexed_sublist (dist : List ℚ) (topK : Option Nat) :
    List.Sublist (rankIndexed dist topK)
      (List.insertionSort rankRel dist.enum) := by
  cases topK with
  | none => exact List.Sublist.refl _
  | some k => exact List.take_sublist k _

theorem enum_pairwise_fst_ne (dist : List ℚ) :
    List.Pairwise (fun a b : Nat × ℚ => a.1 ≠ b.1) dist.enum := by
  rw [List.pairwise_iff_getElem]
  intro i j hi hj hij
  simp only [List.getElem_enum]
  omega

theorem rankIndexed_pairwise_strict (dist : List ℚ) (topK : Option Nat) :
    List.Pairwise rankStrict (rankIndexed dist topK) := by
  have hsub := rankIndexed_sublist dist topK
  have h1 : List.Pairwise rankRel (rankIndexed dist topK) :=
    (List.sorted_insertionSort rankRel dist.enum).sublist hsub
  have h2 : List.Pairwise (fun a b : Nat × ℚ => a.1 ≠ b.1)
      (rankIndexed dist topK) := by
    refine List.Pairwise.sublist hsub ?_
    exact ((List.perm_insertionSort rankRel dist.enum).pairwise_iff
      (fun h => Ne.symm h)).mpr (enum_pairwise_fst_ne dist)
  rw [List.pairwise_iff_getElem] at h1 h2 ⊢
  intro i j hi hj hij
  rcases h1 i j hi hj hij with h | ⟨he, hle⟩
  · exact Or.inl h
  · exact Or.inr ⟨he, lt_of_le_of_ne hle (h2 i j hi hj hij)⟩

theorem rankIndexed_mem {dist : List ℚ} {topK : Option Nat} {p : Nat × ℚ}
    (hp : p ∈ rankIndexed dist topK) : dist.get? p.1 = some p.2 := by
  have h1 : p ∈ List.insertionSort rankRel dist.enum :=
    (rankIndexed_sublist dist topK).subset hp
  have h2 : p ∈ dist.enum :=
    (List.perm_insertionSort rankRel dist.enum).subset h1
  rw [List.mem_enum_iff_getElem?] at h2
  rw [List.get?_eq_getElem?]
  exact h2

theorem rankIndexed_length (dist : List ℚ) (topK : Option Nat) :
    (rankIndexed dist topK).length =
      (match topK with
       | some k => min k dist.length
       | none => dist.length) := by
  cases topK with
  | none => simp [rankIndexed, List.length_insertionSort]
  | some k => simp [rankIndexed, List.length_insertionSort]

theorem rank_eq_ok {dist : List ℚ} {v : Vocabulary} {topK : Option Nat}
    (h : dist.length = v.words.length) :
    rank dist v topK =
      .ok (List.map (fun p => (v.words.getD p.1 "", p.2))
        (rankIndexed dist topK)) := by
  unfold rank
  rw [if_pos h]

/-- Claim C5: for every distribution whose length equals the diagnosis
vocabulary size (and `top_k` at most the class count when provided),
the Ranker succeeds; its indexed ranking is sorted strictly descending
by confidence with ties broken by ascending distribution index, the
output has length `top_k` (or the full class count), every label is
the vocabulary decode of its index, and the returned confidences are
weakly descending. -/
theorem rank_invariants (dist : List ℚ) (v : Vocabulary) (topK : Option Nat)
    (h : dist.length = v.words.length)
    (hk : ∀ k, topK = some k → k ≤ dist.length) :
    ∃ out, rank dist v topK = .ok out ∧
      out = List.map (fun p => (v.words.getD p.1 "", p.2))
        (rankIndexed dist topK) ∧
      out.length =
        (match topK with
         | some k => k
         | none => v.words.length) ∧
      List.Pairwise rankStrict (rankIndexed dist topK) ∧
      (∀ p ∈ rankIndexed dist topK,
        v.decode p.1 = .ok (v.words.getD p.1 "")) ∧
      List.Pairwise (fun x y : String × ℚ => y.2 ≤ x.2) out := by
  refine ⟨_, rank_eq_ok h, rfl, ?_, rankIndexed_pairwise_strict dist topK,
    ?_, ?_⟩
  · cases topK with
    | none =>
      simp only [List.length_map, rankIndexed_length]
      exact h
    | some k =>
      have hkk := hk k rfl
      simp only [List.length_map, rankIndexed_length]
      exact min_eq_left hkk
  · intro p hp
    have hm := rankIndexed_mem hp
    rw [List.get?_eq_getElem?] at hm
    have hlt : p.1 < dist.length := by
      by_contra hge
      rw [List.getElem?_eq_none (by omega)] at hm
      exact Option.noConfusion hm
    have hlt' : p.1 < v.words.length := h ▸ hlt
    have hw := List.getElem?_eq_getElem hlt'
    unfold Vocabulary.decode
    rw [List.get?_eq_getElem?, hw, List.getD_eq_getElem?_getD, hw]
    rfl
  · rw [List.pairwise_map]
    exact (rankIndexed_pairwise_strict dist topK).imp
      (fun hab => by
        rcases hab with hlt | ⟨he, _⟩
        · exact le_of_lt hlt
        · exact le_of_eq he.symm)

/-- Concrete instance of `rank_invariants`: a 3-class distribution
against a 3-label vocabulary with `top_k = 2` succeeds with a ranked
list of length 2. -/
theorem rank_invariants_witness :
    ∃ out, rank [(1 : ℚ)/2, 1/4, 1/4] (Vocabulary.mk ["a", "b", "c"] 0 0)
        (some 2) = .ok out ∧ out.length = 2 := by
  obtain ⟨out, h1, _, h3, _, _, _⟩ :=
    rank_invariants [(1 : ℚ)/2, 1/4, 1/4] (Vocabulary.mk ["a", "b", "c"] 0 0)
      (some 2) rfl
      (by intro k hkk; injection hkk with hh; subst hh; decide)
  exact ⟨out, h1, h3⟩

/-- Claim C6: the Ranker fails exactly when the distribution length
differs from the diagnosis vocabulary size, and on a mismatch it
returns `DistributionMismatchError` carrying both lengths — it never
silently truncates or pads the distribution into a result. -/
theorem rank_mismatch_iff (dist : List ℚ) (v : Vocabulary)
    (topK : Option Nat) :
    ((∃ e, rank dist v topK = .error e) ↔ dist.length ≠ v.words.length) ∧
    (dist.length ≠ v.words.length →
      rank dist v topK =
        .error (.distributionMismatchError dist.length v.words.length)) := by
  by_cases h : dist.length = v.words.length
  · refine ⟨⟨?_, ?_⟩, ?_⟩
    · rintro ⟨e, he⟩
      rw [rank_eq_ok h] at he
      exact Except.noConfusion he
    · intro hne
      exact absurd h hne
    · intro hne
      exact absurd h hne
  · have he : rank dist v topK =
        .error (.distributionMismatchError dist.length v.words.length) := by
      unfold rank
      rw [if_neg h]
    exact ⟨⟨fun _ => h, fun _ => ⟨_, he⟩⟩, fun _ => he⟩

/-- Concrete instance of `rank_mismatch_iff`: the spec's
configuration-mismatch scenario, a 6-class distribution against a
5-label vocabulary. -/
theorem rank_mismatch_iff_witness :
    rank [(1 : ℚ)/6, 1/6, 1/6, 1/6, 1/6, 1/6]
        (Vocabulary.mk ["a", "b", "c", "d", "e"] 0 0) none =
      .error (EngineError.distributionMismatchError 6 5) :=
  (rank_mismatch_iff [(1 : ℚ)/6, 1/6, 1/6, 1/6, 1/6, 1/6]
    (Vocabulary.mk ["a", "b", "c", "d", "e"] 0 0) none).2 (by decide)

/-- Claim C1: whenever the loaded model honors its contract on the
given input (distribution aligned with the diagnosis vocabulary,
non-negative scores summing to 1), the public prediction operation
returns a list of (label, confidence) pairs ordered descending by
confidence with every confidence in [0, 1]. -/
theorem predict_ranked_bounded (e : Engine)
    (subjective associated investigations : List String)
    (gender age : String)
    (hlen : (e.distribution subjective associated investigations gender
        age).length = e.diagnosisVocab.words.length)
    (hnn : ∀ x ∈ e.distribution subjective associated investigations gender
        age, 0 ≤ x)
    (hsum : (e.distribution subjective associated investigations gender
        age).sum = 1) :
    ∃ out, e.predict subjective associated investigations gender age =
        .ok out ∧
      List.Pairwise (fun x y : String × ℚ => y.2 ≤ x.2) out ∧
      ∀ q ∈ out, 0 ≤ q.2 ∧ q.2 ≤ 1 := by
  refine ⟨_, rank_eq_ok hlen, ?_, ?_⟩
  · rw [List.pairwise_map]
    exact (rankIndexed_pairwise_strict _ _).imp
      (fun hab => by
        rcases hab with hlt | ⟨he, _⟩
        · exact le_of_lt hlt
        · exact le_of_eq he.symm)
  · intro q hq
    rw [List.mem_map] at hq
    obtain ⟨p, hp, rfl⟩ := hq
    have hm := rankIndexed_mem hp
    have hmem : p.2 ∈ e.distribution subjective associated investigations
        gender age := by
      rw [List.get?_eq_getElem?] at hm
      exact List.getElem?_mem hm
    exact ⟨hnn _ hmem, hsum ▸ List.single_le_sum hnn _ hmem⟩

/-- A two-diagnosis engine whose loaded model always returns the fixed
distribution (3/4, 1/4), for concrete witness checks. -/
def sampleEngine : Engine :=
  ⟨sampleVocab, Vocabulary.mk ["flu", "cold"] 0 0, "|", .post, 10,
    fun _ _ _ => [(3 : ℚ)/4, 1/4]⟩

/-- Concrete instance of `predict_ranked_bounded` on `sampleEngine`. -/
theorem predict_ranked_bounded_witness :
    ∃ out, sampleEngine.predict ["fever", "cough"] [] ["chest x-ray"]
        "female" "30-40" = .ok out ∧
      List.Pairwise (fun x y : String × ℚ => y.2 ≤ x.2) out ∧
      ∀ q ∈ out, 0 ≤ q.2 ∧ q.2 ≤ 1 := by
  have hdist : sampleEngine.distribution ["fever", "cough"] [] ["chest x-ray"]
      "female" "30-40" = [(3 : ℚ)/4, 1/4] := rfl
  refine predict_ranked_bounded sampleEngine ["fever", "cough"] []
    ["chest x-ray"] "female" "30-40" rfl ?_ ?_
  · rw [hdist]
    intro x hx
    simp only [List.mem_cons, List.not_mem_nil, or_false,
      List.mem_singleton] at hx
    rcases hx with rfl | rfl <;> norm_num
  · rw [hdist]
    simp only [List.sum_cons, List.sum_nil]
    norm_num

/-- Claim C2: prediction is a pure, deterministic function of the
loaded artifacts and the call inputs — two engines whose artifacts and
configuration coincide produce identical ranked output on identical
inputs (so in particular two calls on one engine are bit-identical);
the functional model has no state, side effects or randomness. -/
theorem predict_deterministic (e₁ e₂ : Engine)
    (subjective associated investigations : List String)
    (gender age : String)
    (hv : e₁.symptomVocab = e₂.symptomVocab)
    (hd : e₁.diagnosisVocab = e₂.diagnosisVocab)
    (hs : e₁.separator = e₂.separator)
    (hp : e₁.paddingType = e₂.paddingType)
    (hm : e₁.maxLen = e₂.maxLen)
    (hi : e₁.infer = e₂.infer) :
    e₁.predict subjective associated investigations gender age =
      e₂.predict subjective associated investigations gender age := by
  cases e₁
  cases e₂
  simp only at hv hd hs hp hm hi
  subst hv hd hs hp hm hi
  rfl

/-- Concrete instance of `predict_deterministic`: two calls of
`sampleEngine.predict` on the same input agree. -/
theorem predict_deterministic_witness :
    sampleEngine.predict ["fever"] [] [] "female" "30-40" =
      sampleEngine.predict ["fever"] [] [] "female" "30-40" :=
  predict_deterministic sampleEngine sampleEngine ["fever"] [] [] "female"
    "30-40" rfl rfl rfl rfl rfl rfl
